import Mathlib

/-! The m3pi line-following controller (`controller.cpp`).

A shallow embedding of the controller's pure parts and of its control loop.

Conventions of the embedding:

* `float` values are exact rationals (`ℚ`); every `float` operation is the
  exact operation.  The one `float` operation that has no exact result, the
  division by a zero `sum` in `getLinePosition`, makes the function return
  `none`, and `cycle` and `runLoop` are defined as far as every estimate is a
  number.
* What the program does beyond that point is followed by `getLinePositionF`,
  `cycleF` and `runLoopF`, which are total: they work on `FloatVal`, the
  rationals extended with the two infinities and NaN.
* `int` values are `Int`.  The unsigned accumulators `uint32_t average` and
  `uint16_t sum` are reduced modulo `2 ^ 32` and `2 ^ 16` after each update,
  which is also what the target does when the `int` product overflows.
* A sensor reading (`int[5]`) is a function `Fin 5 → Int`.
* The loop is run over a finite script of readings, one per call of
  `calibrated_sensors`; of its effects only the `activate_motor` calls are
  recorded (serial output, the start-up delay and the calibration are not).
-/

namespace Controller

/-- An `int[5]` array of calibrated sensor values. -/
abbrev SensorReading := Fin 5 → Int

/-! ## `toRange` -/

/-- `toRange(var, min, max)`: the value left in `var`. -/
def toRange (var min max : ℚ) : ℚ :=
  if var > max then max
  else if var < min then min
  else var

/-! ## `getLinePosition` -/

/-- `uint8_t noiseThreshold = 100`. -/
def noiseThreshold : Nat := 100

/-- `uint16_t rangeMin = 0`. -/
def rangeMin : Nat := 0

/-- `uint16_t rangeMax = 4000`. -/
def rangeMax : Nat := 4000

/-- `uint16_t rangeCenter = (rangeMax + rangeMin) / 2`, an integer division. -/
def rangeCenter : Nat := (rangeMax + rangeMin) / 2 % 2 ^ 16

/-- The locals the sensor loop of `getLinePosition` updates. -/
structure Scan where
  lineDetected : Bool
  average : Int
  sum : Int
  deriving DecidableEq

/-- The locals before the loop: `lineDetected = false`, `average = 0`, `sum = 0`. -/
def Scan.init : Scan := ⟨false, 0, 0⟩

/-- One iteration of the loop `for (uint8_t i = 0; i < 5; i++)`. -/
def scanStep (sensorData : SensorReading) (s : Scan) (i : Fin 5) : Scan :=
  if sensorData i > (noiseThreshold : Int) then
    { lineDetected := if sensorData i > 300 then true else s.lineDetected
      average := (s.average + sensorData i * 1000 * ((i : Nat) : Int)) % 2 ^ 32
      sum := (s.sum + sensorData i) % 2 ^ 16 }
  else s

/-- The whole loop over the five sensors. -/
def scan (sensorData : SensorReading) : Scan :=
  (List.finRange 5).foldl (scanStep sensorData) Scan.init

/-- `getLinePosition(sensorData, sensorDataOld, linePositionOld)`.  The
comparison of the fallback is against the `int` quotient
`rangeCenter / (rangeMin + rangeMax)`.  The result is `none` when the
`float` division has a zero divisor. -/
def getLinePosition (sensorData _sensorDataOld : SensorReading)
    (linePositionOld : ℚ) : Option ℚ :=
  let s := scan sensorData
  if !s.lineDetected then
    if linePositionOld < ((rangeCenter / (rangeMin + rangeMax) : Nat) : ℚ) then
      some 1
    else
      some 0
  else if s.sum = 0 then
    none
  else
    let linePosition : ℚ := (s.average : ℚ) / (s.sum : ℚ)
    some (((linePosition / (rangeMax : ℚ)) * 2) - 1)

/-! ## `handleTJunction` -/

/-- `handleTJunction(optoData)`: the flag starts `true` and every sensor below
700 clears it. -/
def handleTJunction (optoData : SensorReading) : Bool :=
  (List.finRange 5).foldl
    (fun shouldStop i => if optoData i < 700 then false else shouldStop) true

/-! ## `main`: constants and the control loop -/

/-- `const float MOTOR_MAX = 0.3`. -/
def MOTOR_MAX : ℚ := 3 / 10

/-- `const float MOTOR_MIN = 0.0`. -/
def MOTOR_MIN : ℚ := 0

/-- The value a `const uint8_t` holds when initialised with a non-negative
constant: the fractional part is discarded. -/
def toUInt8 (q : ℚ) : Nat := (q.num / (q.den : Int)).toNat % 256

/-- `const uint8_t KP = 1`. -/
def KP : Nat := toUInt8 1

/-- `const uint8_t KI = 0.5`. -/
def KI : Nat := toUInt8 (1 / 2)

/-- `const uint8_t KD = 3.5`. -/
def KD : Nat := toUInt8 (7 / 2)

/-- `float baseSpeed = MOTOR_MAX`, never assigned again. -/
def baseSpeed : ℚ := MOTOR_MAX

/-- The variables of `main` that are initialised before the loop and carried
from one iteration to the next.  The other locals (`proportional`,
`derivative`, `controlVariable`, `motorL`, `motorR`, `sensorData`) are written
in every iteration before they are read. -/
structure LoopState where
  linePosition : ℚ
  linePositionOld : ℚ
  integral : ℚ
  sensorDataOld : SensorReading

/-- The state at loop entry: `linePosition = 0.0`, `linePositionOld = 0.0`,
`integral = 0`, `sensorDataOld = {0, 0, 0, 0, 0}`. -/
def LoopState.init : LoopState := ⟨0, 0, 0, ![0, 0, 0, 0, 0]⟩

/-- A call `robot.activate_motor(motor, power)`. -/
structure MotorCommand where
  motor : Nat
  power : ℚ
  deriving DecidableEq

/-- The PID computation of one iteration (the statements from
`proportional = linePosition` to the assignment of `controlVariable`): the
updated state and the control variable. -/
def pidStep (st : LoopState) (linePosition : ℚ) : LoopState × ℚ :=
  let proportional := linePosition
  let derivative := linePosition - st.linePositionOld
  let integral := st.integral + proportional
  let linePositionOld := linePosition
  let controlVariable :=
    (proportional * (KP : ℚ)) + (integral * (KI : ℚ)) + (derivative * (KD : ℚ))
  (⟨linePosition, linePositionOld, integral, st.sensorDataOld⟩, controlVariable)

/-- The motor part of one iteration: both speeds are computed, clamped by
`toRange`, and passed to `activate_motor`, left (motor 0) first. -/
def motorStep (controlVariable : ℚ) : List MotorCommand :=
  let motorR := toRange (baseSpeed - controlVariable) MOTOR_MIN MOTOR_MAX
  let motorL := toRange (baseSpeed + controlVariable) MOTOR_MIN MOTOR_MAX
  [⟨0, motorL⟩, ⟨1, motorR⟩]

/-- What one iteration of `while (true)` does after reading the sensors. -/
inductive CycleResult where
  /-- The iteration executed `return 0`. -/
  | stopped
  /-- The iteration ran to its end: the new state, the control variable it
  computed and the motor calls it made. -/
  | running (st : LoopState) (controlVariable : ℚ) (commands : List MotorCommand)

/-- One iteration of the loop on the reading `sensorData`, on finite values.
`none` when the estimate is not a finite number (zero divisor); `main` does not
leave the loop there, and `cycleF` is the iteration without that restriction. -/
def cycle (st : LoopState) (sensorData : SensorReading) : Option CycleResult :=
  if handleTJunction sensorData then
    some CycleResult.stopped
  else
    match getLinePosition sensorData st.sensorDataOld st.linePositionOld with
    | none => none
    | some linePosition =>
      let (st1, controlVariable) := pidStep st linePosition
      some (CycleResult.running st1 controlVariable (motorStep controlVariable))

/-- The record of a run of the loop over a finite script of readings. -/
structure Run where
  /-- The loop variables when the run ends. -/
  state : LoopState
  /-- The value of `linePosition` after each completed iteration, in order. -/
  estimates : List ℚ
  /-- The `activate_motor` calls, in order. -/
  commands : List MotorCommand
  /-- Whether the loop was left through `return 0`. -/
  stopped : Bool

/-- The loop fed with the readings of a script, one per iteration, on finite
values.  The run ends at the first junction reading, or when the script is
exhausted; it is `none` when an estimate is not a finite number, where
`runLoopF` goes on. -/
def runLoop : LoopState → List SensorReading → Option Run
  | st, [] => some ⟨st, [], [], false⟩
  | st, r :: rs =>
    match cycle st r with
    | none => none
    | some CycleResult.stopped => some ⟨st, [], [], true⟩
    | some (CycleResult.running st1 _ cmds) =>
      match runLoop st1 rs with
      | none => none
      | some run =>
        some ⟨run.state, st1.linePosition :: run.estimates, cmds ++ run.commands,
          run.stopped⟩

/-! ## The loop on `float` values that need not be finite

`main` has no exit for an estimate that is not a finite number: it goes on
with the infinity or NaN the division produced.  The definitions of this
section repeat the estimator and the loop body on `float` values extended with
the IEEE special values; on finite values the operations are the exact ones. -/

/-- A `float` value: a finite number, an infinity or NaN.  A zero is the
positive zero (the only zero divisor of the program is the converted unsigned
`sum`). -/
inductive FloatVal where
  | fin (q : ℚ)
  | posInf
  | negInf
  | nan
  deriving DecidableEq

/-- Unary minus. -/
def FloatVal.neg : FloatVal → FloatVal
  | FloatVal.fin a => FloatVal.fin (-a)
  | FloatVal.posInf => FloatVal.negInf
  | FloatVal.negInf => FloatVal.posInf
  | FloatVal.nan => FloatVal.nan

/-- Addition: NaN is absorbing and the sum of opposite infinities is NaN. -/
def FloatVal.add : FloatVal → FloatVal → FloatVal
  | FloatVal.fin a, FloatVal.fin b => FloatVal.fin (a + b)
  | FloatVal.fin _, FloatVal.posInf => FloatVal.posInf
  | FloatVal.fin _, FloatVal.negInf => FloatVal.negInf
  | FloatVal.posInf, FloatVal.fin _ => FloatVal.posInf
  | FloatVal.posInf, FloatVal.posInf => FloatVal.posInf
  | FloatVal.posInf, FloatVal.negInf => FloatVal.nan
  | FloatVal.negInf, FloatVal.fin _ => FloatVal.negInf
  | FloatVal.negInf, FloatVal.posInf => FloatVal.nan
  | FloatVal.negInf, FloatVal.negInf => FloatVal.negInf
  | FloatVal.nan, _ => FloatVal.nan
  | _, FloatVal.nan => FloatVal.nan

/-- Subtraction, `a - b = a + (-b)`. -/
def FloatVal.sub (a b : FloatVal) : FloatVal := FloatVal.add a (FloatVal.neg b)

/-- The product of the finite factor `a` and an infinity (the positive one when
`positive`): NaN for `a = 0`, else the infinity of the product of the signs. -/
def FloatVal.infTimes (a : ℚ) (positive : Bool) : FloatVal :=
  if a = 0 then FloatVal.nan
  else if 0 < a then (if positive then FloatVal.posInf else FloatVal.negInf)
  else (if positive then FloatVal.negInf else FloatVal.posInf)

/-- Multiplication: NaN is absorbing and zero times an infinity is NaN. -/
def FloatVal.mul : FloatVal → FloatVal → FloatVal
  | FloatVal.fin a, FloatVal.fin b => FloatVal.fin (a * b)
  | FloatVal.fin a, FloatVal.posInf => FloatVal.infTimes a true
  | FloatVal.fin a, FloatVal.negInf => FloatVal.infTimes a false
  | FloatVal.posInf, FloatVal.fin b => FloatVal.infTimes b true
  | FloatVal.negInf, FloatVal.fin b => FloatVal.infTimes b false
  | FloatVal.posInf, FloatVal.posInf => FloatVal.posInf
  | FloatVal.posInf, FloatVal.negInf => FloatVal.negInf
  | FloatVal.negInf, FloatVal.posInf => FloatVal.negInf
  | FloatVal.negInf, FloatVal.negInf => FloatVal.posInf
  | FloatVal.nan, _ => FloatVal.nan
  | _, FloatVal.nan => FloatVal.nan

/-- Division: a nonzero number over zero is an infinity, zero over zero and an
infinity over an infinity are NaN, a number over an infinity is zero. -/
def FloatVal.div : FloatVal → FloatVal → FloatVal
  | FloatVal.fin a, FloatVal.fin b =>
    if b = 0 then
      if a = 0 then FloatVal.nan
      else if 0 < a then FloatVal.posInf
      else FloatVal.negInf
    else FloatVal.fin (a / b)
  | FloatVal.fin _, FloatVal.posInf => FloatVal.fin 0
  | FloatVal.fin _, FloatVal.negInf => FloatVal.fin 0
  | FloatVal.posInf, FloatVal.fin b => if 0 ≤ b then FloatVal.posInf else FloatVal.negInf
  | FloatVal.negInf, FloatVal.fin b => if 0 ≤ b then FloatVal.negInf else FloatVal.posInf
  | FloatVal.posInf, FloatVal.posInf => FloatVal.nan
  | FloatVal.posInf, FloatVal.negInf => FloatVal.nan
  | FloatVal.negInf, FloatVal.posInf => FloatVal.nan
  | FloatVal.negInf, FloatVal.negInf => FloatVal.nan
  | FloatVal.nan, _ => FloatVal.nan
  | _, FloatVal.nan => FloatVal.nan

/-- The comparison `a < b`: false as soon as one side is NaN. -/
def FloatVal.lt : FloatVal → FloatVal → Bool
  | FloatVal.fin a, FloatVal.fin b => decide (a < b)
  | FloatVal.fin _, FloatVal.posInf => true
  | FloatVal.fin _, FloatVal.negInf => false
  | FloatVal.posInf, _ => false
  | FloatVal.negInf, FloatVal.fin _ => true
  | FloatVal.negInf, FloatVal.posInf => true
  | FloatVal.negInf, FloatVal.negInf => false
  | FloatVal.negInf, FloatVal.nan => false
  | FloatVal.nan, _ => false
  | FloatVal.fin _, FloatVal.nan => false

/-- `toRange(var, min, max)` on extended values; `var > max` is `max < var`. -/
def toRangeF (var min max : FloatVal) : FloatVal :=
  if FloatVal.lt max var then max
  else if FloatVal.lt var min then min
  else var

/-- `getLinePosition` on extended values: the same loop over the sensors, the
same fallback comparison, and the division carried out also for a zero `sum`. -/
def getLinePositionF (sensorData _sensorDataOld : SensorReading)
    (linePositionOld : FloatVal) : FloatVal :=
  let s := scan sensorData
  if !s.lineDetected then
    if FloatVal.lt linePositionOld
        (FloatVal.fin ((rangeCenter / (rangeMin + rangeMax) : Nat) : ℚ)) then
      FloatVal.fin 1
    else
      FloatVal.fin 0
  else
    let linePosition := FloatVal.div (FloatVal.fin (s.average : ℚ)) (FloatVal.fin (s.sum : ℚ))
    FloatVal.sub
      (FloatVal.mul (FloatVal.div linePosition (FloatVal.fin (rangeMax : ℚ))) (FloatVal.fin 2))
      (FloatVal.fin 1)

/-- The carried variables of `main` as extended values. -/
structure LoopStateF where
  linePosition : FloatVal
  linePositionOld : FloatVal
  integral : FloatVal
  sensorDataOld : SensorReading

/-- A call `robot.activate_motor(motor, power)` with an extended power. -/
structure MotorCommandF where
  motor : Nat
  power : FloatVal
  deriving DecidableEq

/-- The PID computation of one iteration on extended values. -/
def pidStepF (st : LoopStateF) (linePosition : FloatVal) : LoopStateF × FloatVal :=
  let proportional := linePosition
  let derivative := FloatVal.sub linePosition st.linePositionOld
  let integral := FloatVal.add st.integral proportional
  let linePositionOld := linePosition
  let controlVariable :=
    FloatVal.add
      (FloatVal.add (FloatVal.mul proportional (FloatVal.fin (KP : ℚ)))
        (FloatVal.mul integral (FloatVal.fin (KI : ℚ))))
      (FloatVal.mul derivative (FloatVal.fin (KD : ℚ)))
  (⟨linePosition, linePositionOld, integral, st.sensorDataOld⟩, controlVariable)

/-- The motor part of one iteration on extended values. -/
def motorStepF (controlVariable : FloatVal) : List MotorCommandF :=
  let motorR := toRangeF (FloatVal.sub (FloatVal.fin baseSpeed) controlVariable)
    (FloatVal.fin MOTOR_MIN) (FloatVal.fin MOTOR_MAX)
  let motorL := toRangeF (FloatVal.add (FloatVal.fin baseSpeed) controlVariable)
    (FloatVal.fin MOTOR_MIN) (FloatVal.fin MOTOR_MAX)
  [⟨0, motorL⟩, ⟨1, motorR⟩]

/-- What one iteration does, on extended values. -/
inductive CycleResultF where
  /-- The iteration executed `return 0`. -/
  | stopped
  /-- The iteration ran to its end. -/
  | running (st : LoopStateF) (controlVariable : FloatVal) (commands : List MotorCommandF)

/-- One iteration of the loop on extended values: every non-junction reading
runs the estimator, the PID computation and both motor calls. -/
def cycleF (st : LoopStateF) (sensorData : SensorReading) : CycleResultF :=
  if handleTJunction sensorData then
    CycleResultF.stopped
  else
    let linePosition := getLinePositionF sensorData st.sensorDataOld st.linePositionOld
    let (st1, controlVariable) := pidStepF st linePosition
    CycleResultF.running st1 controlVariable (motorStepF controlVariable)

/-- The record of a run of the loop on extended values. -/
structure RunF where
  state : LoopStateF
  estimates : List FloatVal
  commands : List MotorCommandF
  stopped : Bool

/-- The loop on extended values over a script of readings. -/
def runLoopF : LoopStateF → List SensorReading → RunF
  | st, [] => ⟨st, [], [], false⟩
  | st, r :: rs =>
    match cycleF st r with
    | CycleResultF.stopped => ⟨st, [], [], true⟩
    | CycleResultF.running st1 _ cmds =>
      let run := runLoopF st1 rs
      ⟨run.state, st1.linePosition :: run.estimates, cmds ++ run.commands, run.stopped⟩

/-- A state of finite values as a state of extended values. -/
def LoopState.toF (st : LoopState) : LoopStateF :=
  ⟨FloatVal.fin st.linePosition, FloatVal.fin st.linePositionOld, FloatVal.fin st.integral,
    st.sensorDataOld⟩

/-- A motor call with a finite power as a call with an extended power. -/
def MotorCommand.toF (m : MotorCommand) : MotorCommandF := ⟨m.motor, FloatVal.fin m.power⟩

/-! ## Quantities the statements refer to -/

/-- The weighted total of the sensors above the noise threshold. -/
def weightedTotal (r : SensorReading) : Int :=
  ∑ i : Fin 5, if r i > 100 then r i * 1000 * ((i : Nat) : Int) else 0

/-- The magnitude sum of the sensors above the noise threshold. -/
def magnitudeSum (r : SensorReading) : Int :=
  ∑ i : Fin 5, if r i > 100 then r i else 0

/-! ## The sensor loop -/

theorem finRange_five : List.finRange 5 = [0, 1, 2, 3, 4] := by decide

/-- Folding the loop body over any index list keeps `sum` congruent to the
exact magnitude sum. -/
theorem foldl_scanStep_sum (r : SensorReading) (l : List (Fin 5)) (s : Scan)
    (hs : s.sum % 2 ^ 16 = s.sum) :
    (l.foldl (scanStep r) s).sum
      = (s.sum + (l.map fun i => if r i > 100 then r i else 0).sum) % 2 ^ 16 := by
  induction l generalizing s with
  | nil => simpa using hs.symm
  | cons i l ih =>
    rw [List.foldl_cons, ih]
    · by_cases h : r i > 100
      · simp only [scanStep, noiseThreshold, Nat.cast_ofNat, h, if_true, List.map_cons,
          List.sum_cons]
        rw [Int.emod_add_emod, add_assoc]
      · simp [scanStep, noiseThreshold, h]
    · by_cases h : r i > 100
      · simp only [scanStep, noiseThreshold, Nat.cast_ofNat, h, if_true]
        exact Int.emod_emod_of_dvd _ (dvd_refl _)
      · simpa [scanStep, noiseThreshold, h] using hs

theorem foldl_scanStep_average (r : SensorReading) (l : List (Fin 5)) (s : Scan)
    (hs : s.average % 2 ^ 32 = s.average) :
    (l.foldl (scanStep r) s).average
      = (s.average
          + (l.map fun i => if r i > 100 then r i * 1000 * ((i : Nat) : Int) else 0).sum)
        % 2 ^ 32 := by
  induction l generalizing s with
  | nil => simpa using hs.symm
  | cons i l ih =>
    rw [List.foldl_cons, ih]
    · by_cases h : r i > 100
      · simp only [scanStep, noiseThreshold, Nat.cast_ofNat, h, if_true, List.map_cons,
          List.sum_cons]
        rw [Int.emod_add_emod, add_assoc]
      · simp [scanStep, noiseThreshold, h]
    · by_cases h : r i > 100
      · simp only [scanStep, noiseThreshold, Nat.cast_ofNat, h, if_true]
        exact Int.emod_emod_of_dvd _ (dvd_refl _)
      · simpa [scanStep, noiseThreshold, h] using hs

theorem foldl_scanStep_lineDetected (r : SensorReading) (l : List (Fin 5)) (s : Scan) :
    (l.foldl (scanStep r) s).lineDetected
      = (s.lineDetected || l.any fun i => decide (r i > 300)) := by
  induction l generalizing s with
  | nil => simp
  | cons i l ih =>
    rw [List.foldl_cons, ih]
    by_cases h : r i > 100
    · by_cases h3 : r i > 300
      · simp [scanStep, noiseThreshold, h, h3]
      · simp [scanStep, noiseThreshold, h, h3]
    · have h3 : ¬ r i > 300 := by omega
      simp [scanStep, noiseThreshold, h, h3]

/-- The divisor the loop leaves in `sum` is the exact magnitude sum modulo `2 ^ 16`. -/
theorem scan_sum (r : SensorReading) : (scan r).sum = magnitudeSum r % 2 ^ 16 := by
  rw [scan, foldl_scanStep_sum r _ _ (by decide)]
  simp [finRange_five, Scan.init, magnitudeSum, Fin.sum_univ_five, add_assoc]

/-- The dividend the loop leaves in `average` is the exact weighted total
modulo `2 ^ 32`. -/
theorem scan_average (r : SensorReading) :
    (scan r).average = weightedTotal r % 2 ^ 32 := by
  rw [scan, foldl_scanStep_average r _ _ (by decide)]
  simp [finRange_five, Scan.init, weightedTotal, Fin.sum_univ_five, add_assoc]

/-- The flag is set exactly when some sensor is above 300. -/
theorem scan_lineDetected (r : SensorReading) :
    (scan r).lineDetected = true ↔ ∃ i, r i > 300 := by
  rw [scan, foldl_scanStep_lineDetected]
  simp [Scan.init]

theorem magnitudeSum_nonneg (r : SensorReading) (h : ∀ i, 0 ≤ r i) :
    0 ≤ magnitudeSum r := by
  unfold magnitudeSum
  refine Finset.sum_nonneg fun i _ => ?_
  split_ifs
  · exact h i
  · exact le_refl 0

theorem magnitudeSum_gt (r : SensorReading) (h : ∀ i, 0 ≤ r i) (hd : ∃ i, r i > 300) :
    300 < magnitudeSum r := by
  obtain ⟨j, hj⟩ := hd
  have hle : (if r j > 100 then r j else 0) ≤ magnitudeSum r := by
    unfold magnitudeSum
    refine Finset.single_le_sum (f := fun i => if r i > 100 then r i else 0)
      (fun i _ => ?_) (Finset.mem_univ j)
    show 0 ≤ if r i > 100 then r i else 0
    split_ifs
    · exact h i
    · exact le_refl 0
  have h100 : r j > 100 := by omega
  rw [if_pos h100] at hle
  omega

theorem weightedTotal_nonneg (r : SensorReading) (h : ∀ i, 0 ≤ r i) :
    0 ≤ weightedTotal r := by
  unfold weightedTotal
  refine Finset.sum_nonneg fun i _ => ?_
  split_ifs
  · have := h i
    positivity
  · exact le_refl 0

theorem weightedTotal_le (r : SensorReading) (h : ∀ i, 0 ≤ r i) :
    weightedTotal r ≤ 4000 * magnitudeSum r := by
  unfold weightedTotal magnitudeSum
  rw [Finset.mul_sum]
  refine Finset.sum_le_sum fun i _ => ?_
  have hi : ((i : Nat) : Int) ≤ 4 := by have := i.isLt; omega
  have h0 := h i
  split_ifs
  · nlinarith
  · simp

/-- When the 16-bit sum does not wrap, the estimate is the exact normalised
quotient of the weighted total by the magnitude sum. -/
theorem getLinePosition_exact (r sensorDataOld : SensorReading) (linePositionOld : ℚ)
    (h0 : ∀ i, 0 ≤ r i) (hd : ∃ i, r i > 300) (hs : magnitudeSum r < 65536) :
    getLinePosition r sensorDataOld linePositionOld
      = some ((((weightedTotal r : ℚ) / (magnitudeSum r : ℚ)) / 4000) * 2 - 1) := by
  have hS := magnitudeSum_gt r h0 hd
  have hW0 := weightedTotal_nonneg r h0
  have hW := weightedTotal_le r h0
  have hsum : (scan r).sum = magnitudeSum r := by
    rw [scan_sum]; exact Int.emod_eq_of_lt (by omega) (by omega)
  have havg : (scan r).average = weightedTotal r := by
    rw [scan_average]; exact Int.emod_eq_of_lt hW0 (by omega)
  have hdet : (scan r).lineDetected = true := (scan_lineDetected r).2 hd
  have hne : magnitudeSum r ≠ 0 := by omega
  simp [getLinePosition, hsum, havg, hdet, hne, rangeMax]

theorem magnitudeSum_le (r : SensorReading) (h : ∀ i, r i ≤ 1000) :
    magnitudeSum r ≤ 5000 := by
  have hterm : ∀ i, (if r i > 100 then r i else 0) ≤ 1000 := by
    intro i
    have := h i
    split_ifs <;> omega
  have h0 := hterm 0
  have h1 := hterm 1
  have h2 := hterm 2
  have h3 := hterm 3
  have h4 := hterm 4
  simp only [magnitudeSum, Fin.sum_univ_five]
  omega

/-- Without a sensor above 300 the estimator takes the fallback branch, whose
comparison is against the integer quotient `2000 / 4000`. -/
theorem getLinePosition_fallback (r sensorDataOld : SensorReading) (linePositionOld : ℚ)
    (h : ∀ i, r i ≤ 300) :
    getLinePosition r sensorDataOld linePositionOld
      = if linePositionOld < 0 then some 1 else some 0 := by
  have hdet : (scan r).lineDetected = false := by
    rw [← Bool.not_eq_true, scan_lineDetected]
    rintro ⟨i, hi⟩
    have := h i
    omega
  simp [getLinePosition, hdet, rangeCenter, rangeMin, rangeMax]

theorem KP_eq : KP = 1 := by decide

theorem KI_eq : KI = 0 := by simp [KI, toUInt8]

theorem KD_eq : KD = 3 := by
  have h : ((7 / 2 : ℚ).num / ((7 / 2 : ℚ).den : Int)) = 3 := by norm_num
  simp only [KD, toUInt8, h]
  decide

/-! ## The junction detector and the loop body -/

theorem foldl_shouldStop (r : SensorReading) (l : List (Fin 5)) (b : Bool) :
    l.foldl (fun shouldStop i => if r i < 700 then false else shouldStop) b
      = (b && l.all fun i => decide (700 ≤ r i)) := by
  induction l generalizing b with
  | nil => simp
  | cons i l ih =>
    rw [List.foldl_cons, ih]
    by_cases h : r i < 700
    · have h7 : ¬ 700 ≤ r i := by omega
      simp [h, h7]
    · have h7 : 700 ≤ r i := by omega
      simp [h, h7]

theorem toRange_bounds (x lo hi : ℚ) (h : lo ≤ hi) :
    lo ≤ toRange x lo hi ∧ toRange x lo hi ≤ hi := by
  unfold toRange
  split_ifs with h1 h2
  · exact ⟨h, le_refl hi⟩
  · exact ⟨le_refl lo, h⟩
  · exact ⟨not_lt.mp h2, not_lt.mp h1⟩

theorem motorStep_bounds (c : ℚ) (m : MotorCommand) (hm : m ∈ motorStep c) :
    MOTOR_MIN ≤ m.power ∧ m.power ≤ MOTOR_MAX := by
  have hle : MOTOR_MIN ≤ MOTOR_MAX := by norm_num [MOTOR_MIN, MOTOR_MAX]
  simp only [motorStep, List.mem_cons, List.mem_singleton, List.not_mem_nil, or_false] at hm
  rcases hm with rfl | rfl
  · exact toRange_bounds _ _ _ hle
  · exact toRange_bounds _ _ _ hle

/-- What an iteration that ran to its end has done. -/
theorem cycle_running (st st1 : LoopState) (r : SensorReading) (c : ℚ)
    (cmds : List MotorCommand) (h : cycle st r = some (CycleResult.running st1 c cmds)) :
    handleTJunction r = false
      ∧ ∃ p, getLinePosition r st.sensorDataOld st.linePositionOld = some p
          ∧ st1 = ⟨p, p, st.integral + p, st.sensorDataOld⟩
          ∧ c = p * (KP : ℚ) + (st.integral + p) * (KI : ℚ)
                + (p - st.linePositionOld) * (KD : ℚ)
          ∧ cmds = motorStep c := by
  unfold cycle at h
  by_cases hj : handleTJunction r = true
  · simp [hj] at h
  · have hj2 : handleTJunction r = false := by simpa using hj
    refine ⟨hj2, ?_⟩
    cases hp : getLinePosition r st.sensorDataOld st.linePositionOld with
    | none => simp [hj2, hp] at h
    | some p =>
      simp only [hj2, hp, pidStep, Bool.false_eq_true, if_false, Option.some.injEq,
        CycleResult.running.injEq] at h
      obtain ⟨h1, h2, h3⟩ := h
      refine ⟨p, rfl, h1.symm, h2.symm, ?_⟩
      rw [← h3, h2]

/-- An iteration on a non-junction reading with estimate `p`. -/
theorem cycle_of_estimate (st : LoopState) (r : SensorReading) (p : ℚ)
    (hj : handleTJunction r = false)
    (hp : getLinePosition r st.sensorDataOld st.linePositionOld = some p) :
    cycle st r = some (CycleResult.running ⟨p, p, st.integral + p, st.sensorDataOld⟩
      (p * (KP : ℚ) + (st.integral + p) * (KI : ℚ) + (p - st.linePositionOld) * (KD : ℚ))
      (motorStep (p * (KP : ℚ) + (st.integral + p) * (KI : ℚ)
        + (p - st.linePositionOld) * (KD : ℚ)))) := by
  simp [cycle, hj, hp, pidStep]

theorem cycle_of_junction (st : LoopState) (r : SensorReading)
    (hj : handleTJunction r = true) : cycle st r = some CycleResult.stopped := by
  simp [cycle, hj]

/-- The invariant of the loop, from any entry state. -/
theorem runLoop_invariant (rs : List SensorReading) :
    ∀ (st : LoopState) (run : Run), runLoop st rs = some run →
      run.state.integral = st.integral + run.estimates.sum
        ∧ run.state.linePositionOld = run.estimates.getLast?.getD st.linePositionOld
        ∧ (run.stopped = false → run.estimates.length = rs.length)
        ∧ ∀ m ∈ run.commands, MOTOR_MIN ≤ m.power ∧ m.power ≤ MOTOR_MAX := by
  induction rs with
  | nil =>
    intro st run h
    simp only [runLoop, Option.some.injEq] at h
    subst h
    simp
  | cons r rs ih =>
    intro st run h
    rw [runLoop] at h
    cases hc : cycle st r with
    | none => simp [hc] at h
    | some res =>
      cases res with
      | stopped =>
        simp only [hc, Option.some.injEq] at h
        subst h
        simp
      | running st1 c cmds =>
        cases hr : runLoop st1 rs with
        | none => simp [hc, hr] at h
        | some run1 =>
          simp only [hc, hr, Option.some.injEq] at h
          subst h
          obtain ⟨_, p, _, hst1, _, hcmds⟩ := cycle_running st st1 r c cmds hc
          obtain ⟨hi, hl, hn, hm⟩ := ih st1 run1 hr
          subst hst1
          refine ⟨?_, ?_, ?_, ?_⟩
          · simp only [List.sum_cons]
            rw [hi]
            ring
          · rw [List.getLast?_cons]
            simpa using hl
          · intro hs
            simp only [List.length_cons]
            rw [hn hs]
          · intro m hmem
            rcases List.mem_append.mp hmem with h1 | h2
            · rw [hcmds] at h1
              exact motorStep_bounds c m h1
            · exact hm m h2

theorem runLoop_cons_running (st st1 : LoopState) (r : SensorReading) (c : ℚ)
    (cmds : List MotorCommand) (rs : List SensorReading) (run : Run)
    (hc : cycle st r = some (CycleResult.running st1 c cmds))
    (hr : runLoop st1 rs = some run) :
    runLoop st (r :: rs)
      = some ⟨run.state, st1.linePosition :: run.estimates, cmds ++ run.commands,
          run.stopped⟩ := by
  rw [runLoop]
  simp [hc, hr]

/-- On a reading within the calibrated range `0..1000` the estimator has a
value. -/
theorem getLinePosition_defined (r sensorDataOld : SensorReading) (linePositionOld : ℚ)
    (hr : ∀ i, 0 ≤ r i ∧ r i ≤ 1000) :
    ∃ p, getLinePosition r sensorDataOld linePositionOld = some p := by
  by_cases hd : ∃ i, r i > 300
  · have hle := magnitudeSum_le r fun i => (hr i).2
    exact ⟨_, getLinePosition_exact r sensorDataOld linePositionOld (fun i => (hr i).1) hd
      (by omega)⟩
  · have h300 : ∀ i, r i ≤ 300 := fun i => not_lt.mp fun hi => hd ⟨i, hi⟩
    rw [getLinePosition_fallback r sensorDataOld linePositionOld h300]
    split_ifs
    · exact ⟨1, rfl⟩
    · exact ⟨0, rfl⟩

/-- Over a script of readings within the calibrated range the loop has a run,
from any entry state. -/
theorem runLoop_defined (rs : List SensorReading) :
    ∀ st : LoopState, (∀ r ∈ rs, ∀ i, 0 ≤ r i ∧ r i ≤ 1000) →
      ∃ run, runLoop st rs = some run := by
  induction rs with
  | nil => exact fun st _ => ⟨_, rfl⟩
  | cons r rs ih =>
    intro st hrs
    by_cases hj : handleTJunction r = true
    · refine ⟨⟨st, [], [], true⟩, ?_⟩
      rw [runLoop]
      simp [cycle_of_junction st r hj]
    · have hj2 : handleTJunction r = false := by simpa using hj
      obtain ⟨p, hp⟩ := getLinePosition_defined r st.sensorDataOld st.linePositionOld
        (hrs r (List.mem_cons_self r rs))
      obtain ⟨run, hrun⟩ := ih ⟨p, p, st.integral + p, st.sensorDataOld⟩
        fun r2 h2 => hrs r2 (List.mem_cons_of_mem r h2)
      exact ⟨_, runLoop_cons_running _ _ _ _ _ _ _ (cycle_of_estimate st r p hj2 hp) hrun⟩

/-! ## The loop on extended values agrees with the loop on finite values -/

theorem getLinePositionF_of_some (r sensorDataOld : SensorReading) (q p : ℚ)
    (h : getLinePosition r sensorDataOld q = some p) :
    getLinePositionF r sensorDataOld (FloatVal.fin q) = FloatVal.fin p := by
  unfold getLinePosition at h
  unfold getLinePositionF
  by_cases hd : (scan r).lineDetected = true
  · by_cases hs : (scan r).sum = 0
    · simp [hd, hs] at h
    · have hsq : ((scan r).sum : ℚ) ≠ 0 := by exact_mod_cast hs
      have h4 : ((rangeMax : Nat) : ℚ) ≠ 0 := by norm_num [rangeMax]
      simp only [hd, hs, Bool.not_true, Bool.false_eq_true, if_false,
        Option.some.injEq] at h
      simp only [hd, Bool.not_true, Bool.false_eq_true, if_false, FloatVal.div, hsq, h4,
        FloatVal.mul, FloatVal.sub, FloatVal.neg, FloatVal.add, ← sub_eq_add_neg, h]
  · have hd2 : (scan r).lineDetected = false := by simpa using hd
    simp only [hd2, Bool.not_false, if_true] at h
    simp only [hd2, Bool.not_false, if_true, FloatVal.lt, decide_eq_true_eq]
    split_ifs at h ⊢ with hq
    · rw [← Option.some.inj h]
    · rw [← Option.some.inj h]

theorem toRangeF_fin (x lo hi : ℚ) :
    toRangeF (FloatVal.fin x) (FloatVal.fin lo) (FloatVal.fin hi)
      = FloatVal.fin (toRange x lo hi) := by
  unfold toRangeF toRange
  simp only [FloatVal.lt, decide_eq_true_eq, gt_iff_lt]
  split_ifs <;> rfl

theorem pidStepF_toF (st : LoopState) (p : ℚ) :
    pidStepF st.toF (FloatVal.fin p)
      = ((pidStep st p).1.toF, FloatVal.fin (pidStep st p).2) := by
  simp [pidStepF, pidStep, LoopState.toF, FloatVal.add, FloatVal.sub, FloatVal.neg,
    FloatVal.mul, sub_eq_add_neg]

theorem motorStepF_fin (c : ℚ) :
    motorStepF (FloatVal.fin c) = (motorStep c).map MotorCommand.toF := by
  simp [motorStepF, motorStep, MotorCommand.toF, FloatVal.add, FloatVal.sub, FloatVal.neg,
    toRangeF_fin, sub_eq_add_neg]

/-- A completed iteration of the loop on finite values is the iteration of the
loop on extended values. -/
theorem cycleF_of_running (st st1 : LoopState) (r : SensorReading) (c : ℚ)
    (cmds : List MotorCommand) (h : cycle st r = some (CycleResult.running st1 c cmds)) :
    cycleF st.toF r
      = CycleResultF.running st1.toF (FloatVal.fin c) (cmds.map MotorCommand.toF) := by
  obtain ⟨hj, p, hp, hst1, hc, hcmds⟩ := cycle_running st st1 r c cmds h
  have hF : getLinePositionF r st.toF.sensorDataOld st.toF.linePositionOld
      = FloatVal.fin p := getLinePositionF_of_some r st.sensorDataOld st.linePositionOld p hp
  have hpid : pidStep st p = (st1, c) := by
    rw [hst1, hc]
    rfl
  simp only [cycleF, hj, Bool.false_eq_true, if_false, hF, pidStepF_toF, hpid,
    motorStepF_fin, hcmds]

theorem cycleF_of_junction (st : LoopStateF) (r : SensorReading)
    (hj : handleTJunction r = true) : cycleF st r = CycleResultF.stopped := by
  simp [cycleF, hj]

/-- A run of the loop on finite values is the run of the loop on extended
values. -/
theorem runLoopF_of_runLoop (rs : List SensorReading) :
    ∀ (st : LoopState) (run : Run), runLoop st rs = some run →
      runLoopF st.toF rs
        = ⟨run.state.toF, run.estimates.map FloatVal.fin,
            run.commands.map MotorCommand.toF, run.stopped⟩ := by
  induction rs with
  | nil =>
    intro st run h
    simp only [runLoop, Option.some.injEq] at h
    subst h
    rfl
  | cons r rs ih =>
    intro st run h
    rw [runLoop] at h
    cases hc : cycle st r with
    | none => simp [hc] at h
    | some res =>
      cases res with
      | stopped =>
        simp only [hc, Option.some.injEq] at h
        subst h
        have hj : handleTJunction r = true := by
          by_contra hn
          have hn2 : handleTJunction r = false := by simpa using hn
          unfold cycle at hc
          rw [hn2] at hc
          cases hp : getLinePosition r st.sensorDataOld st.linePositionOld with
          | none => simp [hp] at hc
          | some p => simp [hp] at hc
        rw [runLoopF, cycleF_of_junction _ r hj]
        rfl
      | running st1 c cmds =>
        cases hr : runLoop st1 rs with
        | none => simp [hc, hr] at h
        | some run1 =>
          simp only [hc, hr, Option.some.injEq] at h
          subst h
          rw [runLoopF, cycleF_of_running st st1 r c cmds hc]
          simp only [ih st1 run1 hr]
          simp [LoopState.toF]

/-- A reading within the calibrated range never leaves a zero divisor. -/
theorem scan_sum_ne_zero_of_calibrated (r : SensorReading)
    (hr : ∀ i, 0 ≤ r i ∧ r i ≤ 1000) (hd : (scan r).lineDetected = true) :
    (scan r).sum ≠ 0 := by
  have hex : ∃ i, r i > 300 := (scan_lineDetected r).1 hd
  have hgt := magnitudeSum_gt r (fun i => (hr i).1) hex
  have hle := magnitudeSum_le r fun i => (hr i).2
  rw [scan_sum, Int.emod_eq_of_lt (by omega) (by omega)]
  omega

/-- The estimator has a finite value exactly when the divisor is not zero. -/
theorem getLinePosition_of_divisor (r sensorDataOld : SensorReading) (q : ℚ)
    (hs : (scan r).lineDetected = true → (scan r).sum ≠ 0) :
    ∃ p, getLinePosition r sensorDataOld q = some p := by
  unfold getLinePosition
  by_cases hd : (scan r).lineDetected = true
  · simp [hd, hs hd]
  · have hd2 : (scan r).lineDetected = false := by simpa using hd
    simp only [hd2, Bool.not_false, if_true]
    split_ifs
    · exact ⟨1, rfl⟩
    · exact ⟨0, rfl⟩

/-- Over readings that leave no zero divisor the loop on finite values has a
run, from any state. -/
theorem runLoop_of_divisor (rs : List SensorReading) :
    ∀ st : LoopState, (∀ r ∈ rs, (scan r).lineDetected = true → (scan r).sum ≠ 0) →
      ∃ run, runLoop st rs = some run := by
  induction rs with
  | nil => exact fun st _ => ⟨_, rfl⟩
  | cons r rs ih =>
    intro st hrs
    by_cases hj : handleTJunction r = true
    · refine ⟨⟨st, [], [], true⟩, ?_⟩
      rw [runLoop]
      simp [cycle_of_junction st r hj]
    · have hj2 : handleTJunction r = false := by simpa using hj
      obtain ⟨p, hp⟩ := getLinePosition_of_divisor r st.sensorDataOld st.linePositionOld
        (hrs r (List.mem_cons_self r rs))
      obtain ⟨run, hrun⟩ := ih ⟨p, p, st.integral + p, st.sensorDataOld⟩
        fun r2 h2 => hrs r2 (List.mem_cons_of_mem r h2)
      exact ⟨_, runLoop_cons_running _ _ _ _ _ _ _ (cycle_of_estimate st r p hj2 hp) hrun⟩

/-! ## Evaluations on concrete readings -/

theorem getLinePosition_none_lit :
    getLinePosition ![0, 0, 0, 0, 0] ![0, 0, 0, 0, 0] 0 = some 0 := by
  rw [getLinePosition_fallback _ _ _ (by decide)]
  norm_num

theorem getLinePosition_sensor2 (old : SensorReading) (q : ℚ) :
    getLinePosition ![0, 0, 1000, 0, 0] old q = some 0 := by
  have hW : weightedTotal ![0, 0, 1000, 0, 0] = 2000000 := by decide
  have hS : magnitudeSum ![0, 0, 1000, 0, 0] = 1000 := by decide
  rw [getLinePosition_exact _ _ _ (by decide) (by decide) (by decide), hW, hS]
  norm_num

theorem getLinePosition_sensor3 (old : SensorReading) (q : ℚ) :
    getLinePosition ![0, 0, 0, 1000, 0] old q = some (1 / 2) := by
  have hW : weightedTotal ![0, 0, 0, 1000, 0] = 3000000 := by decide
  have hS : magnitudeSum ![0, 0, 0, 1000, 0] = 1000 := by decide
  rw [getLinePosition_exact _ _ _ (by decide) (by decide) (by decide), hW, hS]
  norm_num

theorem getLinePosition_sensor4 (old : SensorReading) (q : ℚ) :
    getLinePosition ![0, 0, 0, 0, 1000] old q = some 1 := by
  have hW : weightedTotal ![0, 0, 0, 0, 1000] = 4000000 := by decide
  have hS : magnitudeSum ![0, 0, 0, 0, 1000] = 1000 := by decide
  rw [getLinePosition_exact _ _ _ (by decide) (by decide) (by decide), hW, hS]
  norm_num

theorem cycle_init_none_lit :
    cycle LoopState.init ![0, 0, 0, 0, 0]
      = some (CycleResult.running ⟨0, 0, 0, ![0, 0, 0, 0, 0]⟩ 0
          [⟨0, 3 / 10⟩, ⟨1, 3 / 10⟩]) := by
  rw [cycle_of_estimate LoopState.init _ 0 (by decide) getLinePosition_none_lit]
  norm_num [LoopState.init, KP_eq, KI_eq, KD_eq, motorStep, toRange, baseSpeed, MOTOR_MAX,
    MOTOR_MIN]

theorem cycle_zero_sensor2 :
    cycle ⟨0, 0, 0, ![0, 0, 0, 0, 0]⟩ ![0, 0, 1000, 0, 0]
      = some (CycleResult.running ⟨0, 0, 0, ![0, 0, 0, 0, 0]⟩ 0
          [⟨0, 3 / 10⟩, ⟨1, 3 / 10⟩]) := by
  rw [cycle_of_estimate _ _ 0 (by decide) (getLinePosition_sensor2 _ _)]
  norm_num [KP_eq, KI_eq, KD_eq, motorStep, toRange, baseSpeed, MOTOR_MAX, MOTOR_MIN]

theorem cycle_zero_sensor3 :
    cycle ⟨0, 0, 0, ![0, 0, 0, 0, 0]⟩ ![0, 0, 0, 1000, 0]
      = some (CycleResult.running ⟨1 / 2, 1 / 2, 1 / 2, ![0, 0, 0, 0, 0]⟩ 2
          [⟨0, 3 / 10⟩, ⟨1, 0⟩]) := by
  rw [cycle_of_estimate _ _ (1 / 2) (by decide) (getLinePosition_sensor3 _ _)]
  norm_num [KP_eq, KI_eq, KD_eq, motorStep, toRange, baseSpeed, MOTOR_MAX, MOTOR_MIN]

theorem cycle_half_sensor4 :
    cycle ⟨1 / 2, 1 / 2, 1 / 2, ![0, 0, 0, 0, 0]⟩ ![0, 0, 0, 0, 1000]
      = some (CycleResult.running ⟨1, 1, 3 / 2, ![0, 0, 0, 0, 0]⟩ (5 / 2)
          [⟨0, 3 / 10⟩, ⟨1, 0⟩]) := by
  rw [cycle_of_estimate _ _ 1 (by decide) (getLinePosition_sensor4 _ _)]
  norm_num [KP_eq, KI_eq, KD_eq, motorStep, toRange, baseSpeed, MOTOR_MAX, MOTOR_MIN]

theorem cycle_one_sensor4 :
    cycle ⟨1, 1, 0, ![0, 0, 0, 0, 0]⟩ ![0, 0, 0, 0, 1000]
      = some (CycleResult.running ⟨1, 1, 1, ![0, 0, 0, 0, 0]⟩ 1
          [⟨0, 3 / 10⟩, ⟨1, 0⟩]) := by
  rw [cycle_of_estimate _ _ 1 (by decide) (getLinePosition_sensor4 _ _)]
  norm_num [KP_eq, KI_eq, KD_eq, motorStep, toRange, baseSpeed, MOTOR_MAX, MOTOR_MIN]

theorem runLoop_three_lit :
    runLoop LoopState.init [![0, 0, 0, 0, 0], ![0, 0, 0, 1000, 0], ![0, 0, 0, 0, 1000]]
      = some ⟨⟨1, 1, 3 / 2, ![0, 0, 0, 0, 0]⟩, [0, 1 / 2, 1],
          [⟨0, 3 / 10⟩, ⟨1, 3 / 10⟩, ⟨0, 3 / 10⟩, ⟨1, 0⟩, ⟨0, 3 / 10⟩, ⟨1, 0⟩], false⟩ := by
  have r3 := runLoop_cons_running _ _ _ _ _ [] ⟨_, [], [], false⟩ cycle_half_sensor4 rfl
  have r2 := runLoop_cons_running _ _ _ _ _ _ _ cycle_zero_sensor3 r3
  have r1 := runLoop_cons_running _ _ _ _ _ _ _ cycle_init_none_lit r2
  simpa using r1

theorem getLinePositionF_wrapped (old : SensorReading) (q : FloatVal) :
    getLinePositionF ![0, 0, 0, 0, 65536] old q = FloatVal.posInf := by
  have hs : scan ![0, 0, 0, 0, 65536] = ⟨true, 262144000, 0⟩ := by decide
  simp only [getLinePositionF, hs]
  norm_num [FloatVal.div, FloatVal.mul, FloatVal.infTimes, FloatVal.sub, FloatVal.neg,
    FloatVal.add, rangeMax]

theorem cycleF_init_wrapped :
    cycleF LoopState.init.toF ![0, 0, 0, 0, 65536]
      = CycleResultF.running
          ⟨FloatVal.posInf, FloatVal.posInf, FloatVal.posInf, ![0, 0, 0, 0, 0]⟩
          FloatVal.nan [⟨0, FloatVal.nan⟩, ⟨1, FloatVal.nan⟩] := by
  have hj : handleTJunction ![0, 0, 0, 0, 65536] = false := by decide
  simp only [cycleF, hj, getLinePositionF_wrapped, pidStepF, motorStepF, LoopState.toF,
    LoopState.init, KP_eq, KI_eq, KD_eq]
  norm_num [FloatVal.div, FloatVal.mul, FloatVal.infTimes, FloatVal.sub, FloatVal.neg,
    FloatVal.add, FloatVal.lt, toRangeF]

theorem cycleF_inf_sensor2 :
    cycleF ⟨FloatVal.posInf, FloatVal.posInf, FloatVal.posInf, ![0, 0, 0, 0, 0]⟩
        ![0, 0, 1000, 0, 0]
      = CycleResultF.running
          ⟨FloatVal.fin 0, FloatVal.fin 0, FloatVal.posInf, ![0, 0, 0, 0, 0]⟩
          FloatVal.nan [⟨0, FloatVal.nan⟩, ⟨1, FloatVal.nan⟩] := by
  have hj : handleTJunction ![0, 0, 1000, 0, 0] = false := by decide
  have hs : scan ![0, 0, 1000, 0, 0] = ⟨true, 2000000, 1000⟩ := by decide
  simp only [cycleF, hj, getLinePositionF, hs, pidStepF, motorStepF, KP_eq, KI_eq, KD_eq]
  norm_num [FloatVal.div, FloatVal.mul, FloatVal.infTimes, FloatVal.sub, FloatVal.neg,
    FloatVal.add, FloatVal.lt, toRangeF, rangeMax]

/-! ## The line position estimator -/

/-- C1: for a reading with every element in 0..1000 and some element above
300, `getLinePosition` returns `((W / S) / 4000) * 2 - 1` exactly, with `W`
and `S` the weighted total and the magnitude sum over the sensors above 100,
whatever the previous reading and the previous position are. -/
theorem getLinePosition_weighted_mean (r : SensorReading)
    (hr : ∀ i, 0 ≤ r i ∧ r i ≤ 1000) (hd : ∃ i, r i > 300)
    (sensorDataOld : SensorReading) (linePositionOld : ℚ) :
    getLinePosition r sensorDataOld linePositionOld
      = some ((((weightedTotal r : ℚ) / (magnitudeSum r : ℚ)) / 4000) * 2 - 1) := by
  have hle := magnitudeSum_le r fun i => (hr i).2
  exact getLinePosition_exact r sensorDataOld linePositionOld (fun i => (hr i).1) hd
    (by omega)

/-- C1 at the reading `[0, 0, 1000, 0, 0]`: the estimate is exactly 0. -/
theorem getLinePosition_weighted_mean_centered :
    (∀ i, 0 ≤ (![0, 0, 1000, 0, 0] : SensorReading) i
        ∧ (![0, 0, 1000, 0, 0] : SensorReading) i ≤ 1000)
      ∧ (∃ i, (![0, 0, 1000, 0, 0] : SensorReading) i > 300)
      ∧ getLinePosition ![0, 0, 1000, 0, 0] ![1, 2, 3, 4, 5] (7 / 10) = some 0 := by
  refine ⟨by decide, by decide, ?_⟩
  rw [getLinePosition_weighted_mean ![0, 0, 1000, 0, 0] (by decide) (by decide)]
  norm_num [weightedTotal, magnitudeSum, Fin.sum_univ_five]

/-- C2 as stated fails: on the reading `[0, 0, 0, 0, 65537]` the 16-bit sum
wraps to 1 and the value returned is 131073, outside `[-1, 1]`. -/
theorem getLinePosition_wrapped_sum_out_of_range :
    (∀ i, 0 ≤ (![0, 0, 0, 0, 65537] : SensorReading) i)
      ∧ (∃ i, (![0, 0, 0, 0, 65537] : SensorReading) i > 300)
      ∧ getLinePosition ![0, 0, 0, 0, 65537] ![0, 0, 0, 0, 0] 0 = some 131073
      ∧ ¬ (-1 ≤ (131073 : ℚ) ∧ (131073 : ℚ) ≤ 1) := by
  have hs : scan ![0, 0, 0, 0, 65537] = ⟨true, 262148000, 1⟩ := by decide
  refine ⟨by decide, by decide, ?_, by norm_num⟩
  simp only [getLinePosition, hs]
  norm_num [rangeMax]

/-- C2, amended: for a reading of non-negative integers with some element
above 300 whose elements above 100 sum to less than `2 ^ 16`, the value
`getLinePosition` returns lies in `[-1, 1]`. -/
theorem getLinePosition_in_range (r : SensorReading)
    (h0 : ∀ i, 0 ≤ r i) (hd : ∃ i, r i > 300) (hs : magnitudeSum r < 65536)
    (sensorDataOld : SensorReading) (linePositionOld : ℚ) :
    ∃ v, getLinePosition r sensorDataOld linePositionOld = some v ∧ -1 ≤ v ∧ v ≤ 1 := by
  refine ⟨_, getLinePosition_exact r sensorDataOld linePositionOld h0 hd hs, ?_, ?_⟩
  · have hS : (0 : ℚ) < (magnitudeSum r : ℚ) := by
      have := magnitudeSum_gt r h0 hd
      exact_mod_cast (by omega : 0 < magnitudeSum r)
    have hW : (0 : ℚ) ≤ (weightedTotal r : ℚ) := by
      exact_mod_cast weightedTotal_nonneg r h0
    have : (0 : ℚ) ≤ (weightedTotal r : ℚ) / (magnitudeSum r : ℚ) / 4000 * 2 := by
      positivity
    linarith
  · have hS : (0 : ℚ) < (magnitudeSum r : ℚ) := by
      have := magnitudeSum_gt r h0 hd
      exact_mod_cast (by omega : 0 < magnitudeSum r)
    have hW : (weightedTotal r : ℚ) ≤ 4000 * (magnitudeSum r : ℚ) := by
      exact_mod_cast weightedTotal_le r h0
    have hq : (weightedTotal r : ℚ) / (magnitudeSum r : ℚ) ≤ 4000 := by
      rw [div_le_iff₀ hS]
      exact hW
    linarith

/-- C2, amended, at the reading `[0, 400, 0, 65000, 0]`, whose elements are far
beyond the calibrated range while their sum still fits 16 bits. -/
theorem getLinePosition_in_range_large :
    (∀ i, 0 ≤ (![0, 400, 0, 65000, 0] : SensorReading) i)
      ∧ (∃ i, (![0, 400, 0, 65000, 0] : SensorReading) i > 300)
      ∧ magnitudeSum ![0, 400, 0, 65000, 0] < 65536
      ∧ ∃ v, getLinePosition ![0, 400, 0, 65000, 0] ![0, 0, 0, 0, 0] 0 = some v
          ∧ -1 ≤ v ∧ v ≤ 1 :=
  ⟨by decide, by decide, by decide,
    getLinePosition_in_range ![0, 400, 0, 65000, 0] (by decide) (by decide) (by decide)
      ![0, 0, 0, 0, 0] 0⟩

/-- C3: without a sensor above 300 the estimator returns exactly 1 or exactly
0, and the choice is fixed by the previous position: any other such reading and
previous reading give the same value for the same previous position. -/
theorem getLinePosition_fallback_two_valued (r sensorDataOld : SensorReading)
    (linePositionOld : ℚ) (h : ∀ i, r i ≤ 300) :
    (getLinePosition r sensorDataOld linePositionOld = some 1
        ∨ getLinePosition r sensorDataOld linePositionOld = some 0)
      ∧ ∀ (r2 sensorDataOld2 : SensorReading), (∀ i, r2 i ≤ 300) →
          getLinePosition r2 sensorDataOld2 linePositionOld
            = getLinePosition r sensorDataOld linePositionOld := by
  constructor
  · rw [getLinePosition_fallback r sensorDataOld linePositionOld h]
    split_ifs
    · exact Or.inl rfl
    · exact Or.inr rfl
  · intro r2 sensorDataOld2 h2
    rw [getLinePosition_fallback r sensorDataOld linePositionOld h,
      getLinePosition_fallback r2 sensorDataOld2 linePositionOld h2]

/-- C3 at the reading `[0, 100, 300, 250, 0]` with previous position `-1/2`. -/
theorem getLinePosition_fallback_two_valued_example :
    (∀ i, (![0, 100, 300, 250, 0] : SensorReading) i ≤ 300)
      ∧ ((getLinePosition ![0, 100, 300, 250, 0] ![0, 0, 0, 0, 0] (-1 / 2) = some 1
          ∨ getLinePosition ![0, 100, 300, 250, 0] ![0, 0, 0, 0, 0] (-1 / 2) = some 0)
        ∧ ∀ (r2 sensorDataOld2 : SensorReading), (∀ i, r2 i ≤ 300) →
            getLinePosition r2 sensorDataOld2 (-1 / 2)
              = getLinePosition ![0, 100, 300, 250, 0] ![0, 0, 0, 0, 0] (-1 / 2)) :=
  ⟨by decide,
    getLinePosition_fallback_two_valued ![0, 100, 300, 250, 0] ![0, 0, 0, 0, 0] (-1 / 2)
      (by decide)⟩

/-- C4: with no sensor above 300 and previous position `1/4`, which is below
`1/2`, the estimator returns 0 and not 1: the threshold it compares with is the
integer quotient `2000 / 4000 = 0`. -/
theorem getLinePosition_fallback_quarter :
    rangeCenter / (rangeMin + rangeMax) = 0
      ∧ getLinePosition ![0, 0, 0, 0, 0] ![0, 0, 0, 0, 0] (1 / 4) = some 0 := by
  refine ⟨by decide, ?_⟩
  rw [getLinePosition_fallback _ _ _ (by decide)]
  norm_num

/-! ## The PID step and the motor commands -/

/-- C5: a non-junction iteration with estimate `p`, from integral `I` and
previous position `q`, leaves `I + p` in the integral and `p` in the previous
position, and its control variable is `p * KP + (I + p) * KI + (p - q) * KD`
with the gains as stored; the control variable is the raw value of that
expression, with no clamp applied. -/
theorem cycle_pid_update (st : LoopState) (r : SensorReading) (p : ℚ)
    (hj : handleTJunction r = false)
    (hp : getLinePosition r st.sensorDataOld st.linePositionOld = some p) :
    ∃ st1 cmds,
      cycle st r = some (CycleResult.running st1
          (p * (KP : ℚ) + (st.integral + p) * (KI : ℚ)
            + (p - st.linePositionOld) * (KD : ℚ)) cmds)
        ∧ st1.integral = st.integral + p
        ∧ st1.linePositionOld = p :=
  ⟨_, _, cycle_of_estimate st r p hj hp, rfl, rfl⟩

/-- C5 at the reading `[0, 0, 0, 1000, 0]` (estimate `1/2`) from integral 2 and
previous position `-1`: the control variable is `1/2 * KP + 5/2 * KI + 3/2 * KD`. -/
theorem cycle_pid_update_example :
    handleTJunction ![0, 0, 0, 1000, 0] = false
      ∧ getLinePosition ![0, 0, 0, 1000, 0] ![0, 0, 0, 0, 0] (-1) = some (1 / 2)
      ∧ ∃ st1 cmds,
          cycle ⟨-1, -1, 2, ![0, 0, 0, 0, 0]⟩ ![0, 0, 0, 1000, 0]
              = some (CycleResult.running st1
                  ((1 / 2 : ℚ) * (KP : ℚ) + ((2 : ℚ) + 1 / 2) * (KI : ℚ)
                    + ((1 / 2 : ℚ) - (-1)) * (KD : ℚ)) cmds)
            ∧ st1.integral = 2 + 1 / 2
            ∧ st1.linePositionOld = 1 / 2 := by
  have hp : getLinePosition ![0, 0, 0, 1000, 0] ![0, 0, 0, 0, 0] (-1) = some (1 / 2) := by
    have hW : weightedTotal ![0, 0, 0, 1000, 0] = 3000000 := by decide
    have hS : magnitudeSum ![0, 0, 0, 1000, 0] = 1000 := by decide
    rw [getLinePosition_exact _ _ _ (by decide) (by decide) (by decide), hW, hS]
    norm_num
  exact ⟨by decide, hp,
    cycle_pid_update ⟨-1, -1, 2, ![0, 0, 0, 0, 0]⟩ ![0, 0, 0, 1000, 0] (1 / 2)
      (by decide) hp⟩

/-- C6: from the initial state, a run of `n` non-junction iterations leaves in
the integral the exact sum of the `n` estimates of those iterations and in the
previous position the last of them (0 when `n = 0`). -/
theorem runLoop_integral_is_sum (rs : List SensorReading) (run : Run)
    (h : runLoop LoopState.init rs = some run) (hs : run.stopped = false) :
    run.estimates.length = rs.length
      ∧ run.state.integral = run.estimates.sum
      ∧ run.state.linePositionOld = run.estimates.getLast?.getD 0 := by
  obtain ⟨hi, hl, hn, _⟩ := runLoop_invariant rs LoopState.init run h
  refine ⟨hn hs, ?_, ?_⟩
  · rw [hi]
    simp [LoopState.init]
  · rw [hl]
    simp [LoopState.init]

/-- C6 on the script `[0,0,0,0,0]`, `[0,0,0,1000,0]`, `[0,0,0,0,1000]`: the
estimates are 0, `1/2`, 1, the integral ends at `3/2` and the previous position
at 1. -/
theorem runLoop_integral_is_sum_example :
    runLoop LoopState.init [![0, 0, 0, 0, 0], ![0, 0, 0, 1000, 0], ![0, 0, 0, 0, 1000]]
        = some ⟨⟨1, 1, 3 / 2, ![0, 0, 0, 0, 0]⟩, [0, 1 / 2, 1],
            [⟨0, 3 / 10⟩, ⟨1, 3 / 10⟩, ⟨0, 3 / 10⟩, ⟨1, 0⟩, ⟨0, 3 / 10⟩, ⟨1, 0⟩], false⟩
      ∧ ([0, 1 / 2, 1] : List ℚ).length = 3
      ∧ (3 / 2 : ℚ) = ([0, 1 / 2, 1] : List ℚ).sum
      ∧ (1 : ℚ) = ([0, 1 / 2, 1] : List ℚ).getLast?.getD 0 :=
  ⟨runLoop_three_lit,
    runLoop_integral_is_sum
      [![0, 0, 0, 0, 0], ![0, 0, 0, 1000, 0], ![0, 0, 0, 0, 1000]]
      ⟨⟨1, 1, 3 / 2, ![0, 0, 0, 0, 0]⟩, [0, 1 / 2, 1],
        [⟨0, 3 / 10⟩, ⟨1, 3 / 10⟩, ⟨0, 3 / 10⟩, ⟨1, 0⟩, ⟨0, 3 / 10⟩, ⟨1, 0⟩], false⟩
      runLoop_three_lit rfl⟩

/-- C7: the motor calls of an iteration with control variable `c` are
`activate_motor(0, toRange(baseSpeed + c))` then
`activate_motor(1, toRange(baseSpeed - c))`, both clamped to
`[MOTOR_MIN, MOTOR_MAX]`, where `toRange` is: `max` if `x > max`, else `min` if
`x < min`, else `x`. -/
theorem cycle_motor_commands (st st1 : LoopState) (r : SensorReading) (c : ℚ)
    (cmds : List MotorCommand) (h : cycle st r = some (CycleResult.running st1 c cmds)) :
    cmds = [⟨0, toRange (baseSpeed + c) MOTOR_MIN MOTOR_MAX⟩,
            ⟨1, toRange (baseSpeed - c) MOTOR_MIN MOTOR_MAX⟩]
      ∧ (∀ x lo hi : ℚ,
          toRange x lo hi = if x > hi then hi else if x < lo then lo else x)
      ∧ toRange (3 / 10 + 1) 0 (3 / 10) = 3 / 10
      ∧ toRange (3 / 10 - 1) 0 (3 / 10) = 0 := by
  obtain ⟨_, _, _, _, _, hcmds⟩ := cycle_running st st1 r c cmds h
  refine ⟨hcmds, fun _ _ _ => rfl, ?_, ?_⟩
  · norm_num [toRange]
  · norm_num [toRange]

/-- C7 at an iteration whose control variable is 1 (estimate 1 after previous
position 1), with the constants of `main`: left is `3/10`, right is 0. -/
theorem cycle_motor_commands_example :
    cycle ⟨1, 1, 0, ![0, 0, 0, 0, 0]⟩ ![0, 0, 0, 0, 1000]
        = some (CycleResult.running ⟨1, 1, 1, ![0, 0, 0, 0, 0]⟩ 1
            [⟨0, 3 / 10⟩, ⟨1, 0⟩])
      ∧ baseSpeed = 3 / 10 ∧ MOTOR_MIN = 0 ∧ MOTOR_MAX = 3 / 10
      ∧ ([⟨0, 3 / 10⟩, ⟨1, 0⟩] : List MotorCommand)
            = [⟨0, toRange (baseSpeed + 1) MOTOR_MIN MOTOR_MAX⟩,
               ⟨1, toRange (baseSpeed - 1) MOTOR_MIN MOTOR_MAX⟩]
        ∧ (∀ x lo hi : ℚ,
            toRange x lo hi = if x > hi then hi else if x < lo then lo else x)
        ∧ toRange (3 / 10 + 1) 0 (3 / 10) = 3 / 10
        ∧ toRange (3 / 10 - 1) 0 (3 / 10) = 0 :=
  ⟨cycle_one_sensor4, rfl, rfl, rfl,
    cycle_motor_commands ⟨1, 1, 0, ![0, 0, 0, 0, 0]⟩ ⟨1, 1, 1, ![0, 0, 0, 0, 0]⟩
      ![0, 0, 0, 0, 1000] 1 [⟨0, 3 / 10⟩, ⟨1, 0⟩] cycle_one_sensor4⟩

/-- C8 as stated fails: on the non-junction reading `[0, 0, 0, 0, 65536]` the
16-bit sum wraps to 0, the estimate is infinite, the control variable is NaN
and `toRange` leaves it, so both motors are passed NaN, in that iteration and
in the next one on `[0, 0, 1000, 0, 0]`; NaN is not a number of `[0, 3/10]`. -/
theorem motor_powers_nan_on_wrapped_sum :
    (∀ i, 0 ≤ (![0, 0, 0, 0, 65536] : SensorReading) i)
      ∧ handleTJunction ![0, 0, 0, 0, 65536] = false
      ∧ handleTJunction ![0, 0, 1000, 0, 0] = false
      ∧ (runLoopF LoopState.init.toF [![0, 0, 0, 0, 65536], ![0, 0, 1000, 0, 0]]).commands
          = [⟨0, FloatVal.nan⟩, ⟨1, FloatVal.nan⟩, ⟨0, FloatVal.nan⟩, ⟨1, FloatVal.nan⟩]
      ∧ ¬ ∃ q : ℚ, FloatVal.nan = FloatVal.fin q ∧ 0 ≤ q ∧ q ≤ 3 / 10 := by
  refine ⟨by decide, by decide, by decide, ?_, ?_⟩
  · rw [runLoopF, cycleF_init_wrapped]
    simp only []
    rw [runLoopF, cycleF_inf_sensor2]
    simp [runLoopF]
  · rintro ⟨q, hq, _⟩
    exact FloatVal.noConfusion hq

/-- C8, amended: for numbers `min ≤ max` both clamped motor values lie in
`[min, max]`, also as `float` values; and from any state of finite values, over
any script of readings none of which leaves a zero divisor with the line
detected, every power the loop passes to `activate_motor` is a number of
`[0, 3/10]`.  Readings within the calibrated range `0..1000` leave no zero
divisor. -/
theorem motor_powers_bounded (c base lo hi : ℚ) (h : lo ≤ hi) :
    (lo ≤ toRange (base + c) lo hi ∧ toRange (base + c) lo hi ≤ hi
        ∧ lo ≤ toRange (base - c) lo hi ∧ toRange (base - c) lo hi ≤ hi)
      ∧ (toRangeF (FloatVal.fin (base + c)) (FloatVal.fin lo) (FloatVal.fin hi)
            = FloatVal.fin (toRange (base + c) lo hi)
          ∧ toRangeF (FloatVal.fin (base - c)) (FloatVal.fin lo) (FloatVal.fin hi)
            = FloatVal.fin (toRange (base - c) lo hi))
      ∧ (∀ (st : LoopState) (rs : List SensorReading),
          (∀ r ∈ rs, (scan r).lineDetected = true → (scan r).sum ≠ 0) →
            ∀ m ∈ (runLoopF st.toF rs).commands,
              ∃ q : ℚ, m.power = FloatVal.fin q ∧ 0 ≤ q ∧ q ≤ 3 / 10)
      ∧ ∀ r : SensorReading, (∀ i, 0 ≤ r i ∧ r i ≤ 1000) →
          (scan r).lineDetected = true → (scan r).sum ≠ 0 := by
  refine ⟨⟨(toRange_bounds _ lo hi h).1, (toRange_bounds _ lo hi h).2,
    (toRange_bounds _ lo hi h).1, (toRange_bounds _ lo hi h).2⟩,
    ⟨toRangeF_fin _ _ _, toRangeF_fin _ _ _⟩, ?_, scan_sum_ne_zero_of_calibrated⟩
  intro st rs hrs m hm
  obtain ⟨run, hrun⟩ := runLoop_of_divisor rs st hrs
  rw [runLoopF_of_runLoop rs st run hrun] at hm
  obtain ⟨m0, hm0, rfl⟩ := List.mem_map.mp hm
  obtain ⟨_, _, _, hb⟩ := runLoop_invariant rs st run hrun
  have hb0 := hb m0 hm0
  refine ⟨m0.power, rfl, ?_, ?_⟩
  · simpa [MOTOR_MIN] using hb0.1
  · simpa [MOTOR_MAX] using hb0.2

/-- C8, amended, at control variable 1, base speed `3/10` and the range
`[0, 3/10]`. -/
theorem motor_powers_bounded_example :
    (0 : ℚ) ≤ 3 / 10
      ∧ ((0 ≤ toRange (3 / 10 + 1) 0 (3 / 10) ∧ toRange (3 / 10 + 1) 0 (3 / 10) ≤ 3 / 10
          ∧ 0 ≤ toRange (3 / 10 - 1) 0 (3 / 10) ∧ toRange (3 / 10 - 1) 0 (3 / 10) ≤ 3 / 10)
        ∧ (toRangeF (FloatVal.fin (3 / 10 + 1)) (FloatVal.fin 0) (FloatVal.fin (3 / 10))
              = FloatVal.fin (toRange (3 / 10 + 1) 0 (3 / 10))
            ∧ toRangeF (FloatVal.fin (3 / 10 - 1)) (FloatVal.fin 0) (FloatVal.fin (3 / 10))
              = FloatVal.fin (toRange (3 / 10 - 1) 0 (3 / 10)))
        ∧ (∀ (st : LoopState) (rs : List SensorReading),
            (∀ r ∈ rs, (scan r).lineDetected = true → (scan r).sum ≠ 0) →
              ∀ m ∈ (runLoopF st.toF rs).commands,
                ∃ q : ℚ, m.power = FloatVal.fin q ∧ 0 ≤ q ∧ q ≤ 3 / 10)
        ∧ ∀ r : SensorReading, (∀ i, 0 ≤ r i ∧ r i ≤ 1000) →
            (scan r).lineDetected = true → (scan r).sum ≠ 0) :=
  ⟨by norm_num, motor_powers_bounded 1 (3 / 10) 0 (3 / 10) (by norm_num)⟩

/-! ## The junction detector -/

/-- C9: `handleTJunction` is true exactly when each of the five values is at
least 700; `[700, 700, 700, 700, 700]` gives true and
`[699, 1000, 1000, 1000, 1000]` gives false. -/
theorem handleTJunction_iff :
    (∀ r : SensorReading, handleTJunction r = true ↔ ∀ i, r i ≥ 700)
      ∧ handleTJunction ![700, 700, 700, 700, 700] = true
      ∧ handleTJunction ![699, 1000, 1000, 1000, 1000] = false := by
  refine ⟨fun r => ?_, by decide, by decide⟩
  rw [handleTJunction, foldl_shouldStop]
  simp

/-- C10: on a reading for which `handleTJunction` is true the iteration
returns from `main`: it makes no motor call, produces no estimate and leaves
the integral and the previous position as they were, and no reading after it
is processed. -/
theorem cycle_junction_stops (st : LoopState) (r : SensorReading)
    (hj : handleTJunction r = true) :
    cycle st r = some CycleResult.stopped
      ∧ ∀ rest : List SensorReading, runLoop st (r :: rest) = some ⟨st, [], [], true⟩ := by
  have hc := cycle_of_junction st r hj
  refine ⟨hc, fun rest => ?_⟩
  rw [runLoop]
  simp [hc]

/-- C10 on the script `[0,0,0,0,0]`, `[0,0,1000,0,0]`, `[700,700,700,700,700]`:
the third reading stops the loop, so the run makes exactly the four motor
calls (two pairs) of the first two iterations. -/
theorem cycle_junction_stops_script :
    handleTJunction ![700, 700, 700, 700, 700] = true
      ∧ (cycle ⟨0, 0, 0, ![0, 0, 0, 0, 0]⟩ ![700, 700, 700, 700, 700]
            = some CycleResult.stopped
          ∧ ∀ rest : List SensorReading,
              runLoop ⟨0, 0, 0, ![0, 0, 0, 0, 0]⟩ (![700, 700, 700, 700, 700] :: rest)
                = some ⟨⟨0, 0, 0, ![0, 0, 0, 0, 0]⟩, [], [], true⟩)
      ∧ runLoop LoopState.init
            [![0, 0, 0, 0, 0], ![0, 0, 1000, 0, 0], ![700, 700, 700, 700, 700]]
          = some ⟨⟨0, 0, 0, ![0, 0, 0, 0, 0]⟩, [0, 0],
              [⟨0, 3 / 10⟩, ⟨1, 3 / 10⟩, ⟨0, 3 / 10⟩, ⟨1, 3 / 10⟩], true⟩ := by
  have h3 := cycle_junction_stops ⟨0, 0, 0, ![0, 0, 0, 0, 0]⟩
    ![700, 700, 700, 700, 700] (by decide)
  refine ⟨by decide, h3, ?_⟩
  have r2 := runLoop_cons_running _ _ _ _ _ _ _ cycle_zero_sensor2 (h3.2 [])
  have r1 := runLoop_cons_running _ _ _ _ _ _ _ cycle_init_none_lit r2
  simpa using r1

/-! ## Relations between estimates, and between PID steps -/

/-- C11: for two readings with elements in 0..1000, each with an element above
300, and equal magnitude sums, a smaller or equal weighted total gives a
smaller or equal estimate, and a strictly smaller one when the totals differ. -/
theorem getLinePosition_monotone (a b : SensorReading)
    (ha : ∀ i, 0 ≤ a i ∧ a i ≤ 1000) (hb : ∀ i, 0 ≤ b i ∧ b i ≤ 1000)
    (hda : ∃ i, a i > 300) (hdb : ∃ i, b i > 300)
    (hS : magnitudeSum a = magnitudeSum b) (hW : weightedTotal a ≤ weightedTotal b)
    (oldA oldB : SensorReading) (qA qB : ℚ) :
    ∃ va vb, getLinePosition a oldA qA = some va ∧ getLinePosition b oldB qB = some vb
      ∧ va ≤ vb ∧ (weightedTotal a ≠ weightedTotal b → va < vb) := by
  have hla := magnitudeSum_le a fun i => (ha i).2
  have hlb := magnitudeSum_le b fun i => (hb i).2
  have hSpos : (0 : ℚ) < (magnitudeSum b : ℚ) := by
    have := magnitudeSum_gt b (fun i => (hb i).1) hdb
    exact_mod_cast (by omega : 0 < magnitudeSum b)
  refine ⟨_, _, getLinePosition_exact a oldA qA (fun i => (ha i).1) hda (by omega),
    getLinePosition_exact b oldB qB (fun i => (hb i).1) hdb (by omega), ?_, ?_⟩
  · rw [hS]
    have hWq : (weightedTotal a : ℚ) ≤ (weightedTotal b : ℚ) := by exact_mod_cast hW
    have hq : (weightedTotal a : ℚ) / (magnitudeSum b : ℚ)
        ≤ (weightedTotal b : ℚ) / (magnitudeSum b : ℚ) :=
      div_le_div_of_nonneg_right hWq (le_of_lt hSpos)
    linarith
  · intro hne
    rw [hS]
    have hWq : (weightedTotal a : ℚ) < (weightedTotal b : ℚ) := by
      exact_mod_cast lt_of_le_of_ne hW hne
    have hq : (weightedTotal a : ℚ) / (magnitudeSum b : ℚ)
        < (weightedTotal b : ℚ) / (magnitudeSum b : ℚ) :=
      div_lt_div_of_pos_right hWq hSpos
    linarith

/-- C11 at `[0, 0, 1000, 0, 0]` and `[0, 0, 0, 1000, 0]`: equal magnitude sums,
weighted totals 2000000 and 3000000. -/
theorem getLinePosition_monotone_example :
    (∀ i, 0 ≤ (![0, 0, 1000, 0, 0] : SensorReading) i
        ∧ (![0, 0, 1000, 0, 0] : SensorReading) i ≤ 1000)
      ∧ (∀ i, 0 ≤ (![0, 0, 0, 1000, 0] : SensorReading) i
        ∧ (![0, 0, 0, 1000, 0] : SensorReading) i ≤ 1000)
      ∧ (∃ i, (![0, 0, 1000, 0, 0] : SensorReading) i > 300)
      ∧ (∃ i, (![0, 0, 0, 1000, 0] : SensorReading) i > 300)
      ∧ magnitudeSum ![0, 0, 1000, 0, 0] = magnitudeSum ![0, 0, 0, 1000, 0]
      ∧ weightedTotal ![0, 0, 1000, 0, 0] ≤ weightedTotal ![0, 0, 0, 1000, 0]
      ∧ ∃ va vb, getLinePosition ![0, 0, 1000, 0, 0] ![0, 0, 0, 0, 0] 0 = some va
          ∧ getLinePosition ![0, 0, 0, 1000, 0] ![0, 0, 0, 0, 0] 0 = some vb
          ∧ va ≤ vb
          ∧ (weightedTotal ![0, 0, 1000, 0, 0] ≠ weightedTotal ![0, 0, 0, 1000, 0]
              → va < vb) :=
  ⟨by decide, by decide, by decide, by decide, by decide, by decide,
    getLinePosition_monotone ![0, 0, 1000, 0, 0] ![0, 0, 0, 1000, 0] (by decide)
      (by decide) (by decide) (by decide) (by decide) (by decide)
      ![0, 0, 0, 0, 0] ![0, 0, 0, 0, 0] 0 0⟩

/-- C12: for a nonzero position `p`, two PID steps with `p` from the fresh
state (integral 0, previous position 0) give different control variables. -/
theorem pidStep_twice_differs (p : ℚ) (hp : p ≠ 0) :
    (pidStep (pidStep LoopState.init p).1 p).2 ≠ (pidStep LoopState.init p).2 := by
  simp only [pidStep, LoopState.init, KP_eq, KI_eq, KD_eq]
  intro h
  apply hp
  push_cast at h
  linarith

/-- C12 at `p = 1/2`. -/
theorem pidStep_twice_differs_example :
    (1 / 2 : ℚ) ≠ 0
      ∧ (pidStep (pidStep LoopState.init (1 / 2)).1 (1 / 2)).2
          ≠ (pidStep LoopState.init (1 / 2)).2 :=
  ⟨by norm_num, pidStep_twice_differs (1 / 2) (by norm_num)⟩

/-- C13: for `lo ≤ hi`, applying `toRange` to its own result changes nothing. -/
theorem toRange_idempotent (x lo hi : ℚ) (h : lo ≤ hi) :
    toRange (toRange x lo hi) lo hi = toRange x lo hi := by
  obtain ⟨h1, h2⟩ := toRange_bounds x lo hi h
  generalize toRange x lo hi = y at h1 h2
  unfold toRange
  rw [if_neg (not_lt.mpr h2), if_neg (not_lt.mpr h1)]

/-- C13 at `x = 13/10` in `[0, 3/10]`. -/
theorem toRange_idempotent_example :
    (0 : ℚ) ≤ 3 / 10
      ∧ toRange (toRange (13 / 10) 0 (3 / 10)) 0 (3 / 10) = toRange (13 / 10) 0 (3 / 10) :=
  ⟨by norm_num, toRange_idempotent (13 / 10) 0 (3 / 10) (by norm_num)⟩

/-! ## The divisor, the gains and the previous reading -/

/-- C14 as stated fails: on the reading `[0, 0, 0, 0, 65536]` the flag is set
while the 16-bit sum has wrapped to 0, and the estimator has no value. -/
theorem scan_wrapped_sum_zero :
    (∀ i, 0 ≤ (![0, 0, 0, 0, 65536] : SensorReading) i)
      ∧ (scan ![0, 0, 0, 0, 65536]).lineDetected = true
      ∧ (scan ![0, 0, 0, 0, 65536]).sum = 0
      ∧ getLinePosition ![0, 0, 0, 0, 65536] ![0, 0, 0, 0, 0] 0 = none := by
  have hs : scan ![0, 0, 0, 0, 65536] = ⟨true, 262144000, 0⟩ := by decide
  refine ⟨by decide, ?_, ?_, ?_⟩
  · rw [hs]
  · rw [hs]
  · simp [getLinePosition, hs]

/-- C14, amended: for a reading of non-negative integers whose elements above
100 sum to less than `2 ^ 16`, a set line-detected flag after the loop comes
with a nonzero 16-bit sum, so the division has a nonzero divisor and the
estimator returns a value. -/
theorem scan_sum_ne_zero (r : SensorReading) (h0 : ∀ i, 0 ≤ r i)
    (hs : magnitudeSum r < 65536) (hd : (scan r).lineDetected = true) :
    (scan r).sum ≠ 0
      ∧ ∀ (sensorDataOld : SensorReading) (linePositionOld : ℚ),
          ∃ v, getLinePosition r sensorDataOld linePositionOld = some v := by
  have hex : ∃ i, r i > 300 := (scan_lineDetected r).1 hd
  have hgt := magnitudeSum_gt r h0 hex
  refine ⟨?_, fun old q => ⟨_, getLinePosition_exact r old q h0 hex hs⟩⟩
  rw [scan_sum, Int.emod_eq_of_lt (by omega) (by omega)]
  omega

/-- C14, amended, at the reading `[0, 350, 1000, 120, 0]`. -/
theorem scan_sum_ne_zero_example :
    (∀ i, 0 ≤ (![0, 350, 1000, 120, 0] : SensorReading) i)
      ∧ magnitudeSum ![0, 350, 1000, 120, 0] < 65536
      ∧ (scan ![0, 350, 1000, 120, 0]).lineDetected = true
      ∧ ((scan ![0, 350, 1000, 120, 0]).sum ≠ 0
        ∧ ∀ (sensorDataOld : SensorReading) (linePositionOld : ℚ),
            ∃ v, getLinePosition ![0, 350, 1000, 120, 0] sensorDataOld linePositionOld
              = some v) :=
  ⟨by decide, by decide, by decide,
    scan_sum_ne_zero ![0, 350, 1000, 120, 0] (by decide) (by decide) (by decide)⟩

/-- C15: of the three gains as stored, `KP` is 1 and `KD` is 3, but `KI`,
initialised with `0.5`, holds 0 and is not strictly positive. -/
theorem gains_as_stored :
    0 < KP ∧ 0 < KD ∧ KI = 0 ∧ ¬ 0 < KI := by
  rw [KP_eq, KI_eq, KD_eq]
  decide

/-- C16: after the non-junction iteration on `[0, 0, 0, 1000, 0]` from the
initial state, `sensorDataOld` is still `{0, 0, 0, 0, 0}`, not the reading of
that iteration; no completed iteration assigns `sensorDataOld`. -/
theorem cycle_sensorDataOld_stale :
    handleTJunction ![0, 0, 0, 1000, 0] = false
      ∧ cycle LoopState.init ![0, 0, 0, 1000, 0]
          = some (CycleResult.running ⟨1 / 2, 1 / 2, 1 / 2, ![0, 0, 0, 0, 0]⟩ 2
              [⟨0, 3 / 10⟩, ⟨1, 0⟩])
      ∧ (![0, 0, 0, 0, 0] : SensorReading) ≠ ![0, 0, 0, 1000, 0]
      ∧ ∀ (st st1 : LoopState) (r : SensorReading) (c : ℚ) (cmds : List MotorCommand),
          cycle st r = some (CycleResult.running st1 c cmds) →
            st1.sensorDataOld = st.sensorDataOld := by
  refine ⟨by decide, cycle_zero_sensor3, ?_, ?_⟩
  · intro h
    have h3 := congrFun h 3
    revert h3
    decide
  · intro st st1 r c cmds h
    obtain ⟨_, p, _, hst1, _, _⟩ := cycle_running st st1 r c cmds h
    rw [hst1]

/-! ## Consequences of the stored constants -/

/-- The motor calls of a run do not change when the entry integral does. -/
theorem runLoop_commands_integral (rs : List SensorReading) :
    ∀ (st : LoopState) (J : ℚ),
      (runLoop ⟨st.linePosition, st.linePositionOld, J, st.sensorDataOld⟩ rs).map
          (fun run => run.commands)
        = (runLoop st rs).map (fun run => run.commands) := by
  induction rs with
  | nil => exact fun st J => rfl
  | cons r rs ih =>
    intro st J
    by_cases hj : handleTJunction r = true
    · rw [runLoop, runLoop, cycle_of_junction _ r hj, cycle_of_junction _ r hj]
      rfl
    · have hj2 : handleTJunction r = false := by simpa using hj
      cases hp : getLinePosition r st.sensorDataOld st.linePositionOld with
      | none =>
        rw [runLoop, runLoop]
        simp [cycle, hj2, hp]
      | some p =>
        have c1 := cycle_of_estimate st r p hj2 hp
        have c2 := cycle_of_estimate
          ⟨st.linePosition, st.linePositionOld, J, st.sensorDataOld⟩ r p hj2 hp
        have hc : p * (KP : ℚ) + (J + p) * (KI : ℚ) + (p - st.linePositionOld) * (KD : ℚ)
            = p * (KP : ℚ) + (st.integral + p) * (KI : ℚ)
              + (p - st.linePositionOld) * (KD : ℚ) := by
          rw [KI_eq]
          simp
        simp only [hc] at c2
        have hrec :
            (runLoop ⟨p, p, J + p, st.sensorDataOld⟩ rs).map (fun run => run.commands)
              = (runLoop ⟨p, p, st.integral + p, st.sensorDataOld⟩ rs).map
                  (fun run => run.commands) :=
          ih ⟨p, p, st.integral + p, st.sensorDataOld⟩ (J + p)
        rw [runLoop, runLoop, c1, c2]
        cases h1 : runLoop ⟨p, p, J + p, st.sensorDataOld⟩ rs with
        | none =>
          cases h2 : runLoop ⟨p, p, st.integral + p, st.sensorDataOld⟩ rs with
          | none => simp [h1, h2]
          | some run2 => simp [h1, h2] at hrec
        | some run1 =>
          cases h2 : runLoop ⟨p, p, st.integral + p, st.sensorDataOld⟩ rs with
          | none => simp [h1, h2] at hrec
          | some run2 =>
            simp only [h1, h2, Option.map_some', Option.some.injEq] at hrec
            simp [h1, h2, hrec]

/-- C17: the gains as stored are `KP = 1`, `KI = 0`, `KD = 3`, so the control
variable of a PID step with position `p` after previous position `q` is
`4 * p - 3 * q` whatever the integral is, and the motor calls of a run do not
depend on the integral the run starts with. -/
theorem controlVariable_formula :
    KP = 1 ∧ KI = 0 ∧ KD = 3
      ∧ (∀ (st : LoopState) (p : ℚ), (pidStep st p).2 = 4 * p - 3 * st.linePositionOld)
      ∧ ∀ (st : LoopState) (rs : List SensorReading) (J : ℚ),
          (runLoop ⟨st.linePosition, st.linePositionOld, J, st.sensorDataOld⟩ rs).map
              (fun run => run.commands)
            = (runLoop st rs).map (fun run => run.commands) := by
  refine ⟨KP_eq, KI_eq, KD_eq, fun st p => ?_, fun st rs J =>
    runLoop_commands_integral rs st J⟩
  simp only [pidStep, KP_eq, KI_eq, KD_eq]
  push_cast
  ring

/-- C18: without a sensor above 300 the estimator returns 1 exactly when the
previous position is negative and 0 otherwise, the threshold being the integer
quotient `rangeCenter / (rangeMin + rangeMax) = 2000 / 4000 = 0`. -/
theorem getLinePosition_fallback_sign (r sensorDataOld : SensorReading)
    (linePositionOld : ℚ) (h : ∀ i, r i ≤ 300) :
    (getLinePosition r sensorDataOld linePositionOld = some 1 ↔ linePositionOld < 0)
      ∧ (getLinePosition r sensorDataOld linePositionOld = some 0 ↔ ¬ linePositionOld < 0)
      ∧ rangeCenter = 2000 ∧ rangeMin + rangeMax = 4000
      ∧ rangeCenter / (rangeMin + rangeMax) = 0 := by
  rw [getLinePosition_fallback r sensorDataOld linePositionOld h]
  refine ⟨?_, ?_, by decide, by decide, by decide⟩
  · split_ifs with hq
    · simp [hq]
    · simp [hq]
  · split_ifs with hq
    · simp [hq]
    · simp [hq]

/-- C18 at the reading `[100, 300, 0, 0, 200]` with previous position `-1/4`. -/
theorem getLinePosition_fallback_sign_example :
    (∀ i, (![100, 300, 0, 0, 200] : SensorReading) i ≤ 300)
      ∧ ((getLinePosition ![100, 300, 0, 0, 200] ![0, 0, 0, 0, 0] (-1 / 4) = some 1
            ↔ (-1 / 4 : ℚ) < 0)
        ∧ (getLinePosition ![100, 300, 0, 0, 200] ![0, 0, 0, 0, 0] (-1 / 4) = some 0
            ↔ ¬ (-1 / 4 : ℚ) < 0)
        ∧ rangeCenter = 2000 ∧ rangeMin + rangeMax = 4000
        ∧ rangeCenter / (rangeMin + rangeMax) = 0) :=
  ⟨by decide,
    getLinePosition_fallback_sign ![100, 300, 0, 0, 200] ![0, 0, 0, 0, 0] (-1 / 4)
      (by decide)⟩

/-- C19 as stated fails: the iteration on the non-junction reading
`[0, 0, 0, 0, 65536]` from the initial state passes NaN to both motors, so
neither is commanded at `MOTOR_MAX`. -/
theorem cycle_no_motor_at_max_on_wrapped_sum :
    handleTJunction ![0, 0, 0, 0, 65536] = false
      ∧ cycleF LoopState.init.toF ![0, 0, 0, 0, 65536]
          = CycleResultF.running
              ⟨FloatVal.posInf, FloatVal.posInf, FloatVal.posInf, ![0, 0, 0, 0, 0]⟩
              FloatVal.nan [⟨0, FloatVal.nan⟩, ⟨1, FloatVal.nan⟩]
      ∧ FloatVal.nan ≠ FloatVal.fin MOTOR_MAX := by
  refine ⟨by decide, cycleF_init_wrapped, ?_⟩
  intro h
  exact FloatVal.noConfusion h

/-- C19, amended: every iteration from a state of finite values on a
non-junction reading that leaves no zero divisor with the line detected (as
every reading within `0..1000` does) runs to its end with finite values, its
left command is `MOTOR_MAX` when the control variable is at least 0 and its
right command is `MOTOR_MAX` when it is at most 0, so one of the two motors is
commanded at `MOTOR_MAX`. -/
theorem cycle_one_motor_at_max (st : LoopState) (r : SensorReading)
    (hj : handleTJunction r = false)
    (hs : (scan r).lineDetected = true → (scan r).sum ≠ 0) :
    (∃ (st1 : LoopState) (c left right : ℚ),
        cycleF st.toF r
            = CycleResultF.running st1.toF (FloatVal.fin c)
                [⟨0, FloatVal.fin left⟩, ⟨1, FloatVal.fin right⟩]
          ∧ (0 ≤ c → left = MOTOR_MAX) ∧ (c ≤ 0 → right = MOTOR_MAX)
          ∧ (left = MOTOR_MAX ∨ right = MOTOR_MAX))
      ∧ baseSpeed = MOTOR_MAX ∧ MOTOR_MIN ≤ MOTOR_MAX
      ∧ ∀ r2 : SensorReading, (∀ i, 0 ≤ r2 i ∧ r2 i ≤ 1000) →
          (scan r2).lineDetected = true → (scan r2).sum ≠ 0 := by
  have hle : MOTOR_MIN ≤ MOTOR_MAX := by norm_num [MOTOR_MIN, MOTOR_MAX]
  refine ⟨?_, rfl, hle, scan_sum_ne_zero_of_calibrated⟩
  obtain ⟨p, hp⟩ := getLinePosition_of_divisor r st.sensorDataOld st.linePositionOld hs
  have hc := cycleF_of_running st _ r _ _ (cycle_of_estimate st r p hj hp)
  have hl : ∀ c : ℚ, 0 ≤ c → toRange (baseSpeed + c) MOTOR_MIN MOTOR_MAX = MOTOR_MAX := by
    intro c hc0
    unfold toRange baseSpeed
    split_ifs with h1 h2
    · rfl
    · linarith
    · linarith
  have hr : ∀ c : ℚ, c ≤ 0 → toRange (baseSpeed - c) MOTOR_MIN MOTOR_MAX = MOTOR_MAX := by
    intro c hc0
    unfold toRange baseSpeed
    split_ifs with h1 h2
    · rfl
    · linarith
    · linarith
  refine ⟨_, _, _, _, hc, hl _, hr _, ?_⟩
  rcases le_total 0
    (p * (KP : ℚ) + (st.integral + p) * (KI : ℚ) + (p - st.linePositionOld) * (KD : ℚ))
    with h0 | h0
  · exact Or.inl (hl _ h0)
  · exact Or.inr (hr _ h0)

/-- C19, amended, at the reading `[0, 0, 0, 0, 1000]` from previous position 1. -/
theorem cycle_one_motor_at_max_example :
    handleTJunction ![0, 0, 0, 0, 1000] = false
      ∧ ((scan ![0, 0, 0, 0, 1000]).lineDetected = true → (scan ![0, 0, 0, 0, 1000]).sum ≠ 0)
      ∧ ((∃ (st1 : LoopState) (c left right : ℚ),
            cycleF (LoopState.toF ⟨1, 1, 0, ![0, 0, 0, 0, 0]⟩) ![0, 0, 0, 0, 1000]
                = CycleResultF.running st1.toF (FloatVal.fin c)
                    [⟨0, FloatVal.fin left⟩, ⟨1, FloatVal.fin right⟩]
              ∧ (0 ≤ c → left = MOTOR_MAX) ∧ (c ≤ 0 → right = MOTOR_MAX)
              ∧ (left = MOTOR_MAX ∨ right = MOTOR_MAX))
        ∧ baseSpeed = MOTOR_MAX ∧ MOTOR_MIN ≤ MOTOR_MAX
        ∧ ∀ r2 : SensorReading, (∀ i, 0 ≤ r2 i ∧ r2 i ≤ 1000) →
            (scan r2).lineDetected = true → (scan r2).sum ≠ 0) :=
  ⟨by decide, by decide,
    cycle_one_motor_at_max ⟨1, 1, 0, ![0, 0, 0, 0, 0]⟩ ![0, 0, 0, 0, 1000] (by decide)
      (by decide)⟩

/-! ## Reversing the sensor order -/

theorem fin5_rev_values :
    Fin.rev (0 : Fin 5) = 4 ∧ Fin.rev (1 : Fin 5) = 3 ∧ Fin.rev (2 : Fin 5) = 2
      ∧ Fin.rev (3 : Fin 5) = 1 ∧ Fin.rev (4 : Fin 5) = 0 := by decide

theorem fin5_val_values :
    (((0 : Fin 5) : Nat) : Int) = 0 ∧ (((1 : Fin 5) : Nat) : Int) = 1
      ∧ (((2 : Fin 5) : Nat) : Int) = 2 ∧ (((3 : Fin 5) : Nat) : Int) = 3
      ∧ (((4 : Fin 5) : Nat) : Int) = 4 := by decide

theorem magnitudeSum_rev (r : SensorReading) :
    magnitudeSum (fun i => r (Fin.rev i)) = magnitudeSum r := by
  obtain ⟨e0, e1, e2, e3, e4⟩ := fin5_rev_values
  simp only [magnitudeSum, Fin.sum_univ_five, e0, e1, e2, e3, e4]
  ring

theorem weightedTotal_rev (r : SensorReading) :
    weightedTotal (fun i => r (Fin.rev i)) = 4000 * magnitudeSum r - weightedTotal r := by
  obtain ⟨e0, e1, e2, e3, e4⟩ := fin5_rev_values
  obtain ⟨v0, v1, v2, v3, v4⟩ := fin5_val_values
  simp only [weightedTotal, magnitudeSum, Fin.sum_univ_five, e0, e1, e2, e3, e4, v0, v1, v2,
    v3, v4]
  generalize r 0 = a
  generalize r 1 = b
  generalize r 2 = c
  generalize r 3 = d
  generalize r 4 = e
  split_ifs <;> ring

/-- C20: for a reading with elements in 0..1000 and an element above 300, the
estimate of the reading with the five sensors in reverse order is the negation
of the estimate of the reading. -/
theorem getLinePosition_reverse (r : SensorReading)
    (hr : ∀ i, 0 ≤ r i ∧ r i ≤ 1000) (hd : ∃ i, r i > 300)
    (old1 old2 : SensorReading) (q1 q2 : ℚ) :
    ∃ v, getLinePosition r old1 q1 = some v
      ∧ getLinePosition (fun i => r (Fin.rev i)) old2 q2 = some (-v) := by
  have hle := magnitudeSum_le r fun i => (hr i).2
  have hgt := magnitudeSum_gt r (fun i => (hr i).1) hd
  have hd2 : ∃ i, r (Fin.rev i) > 300 := by
    obtain ⟨j, hj⟩ := hd
    exact ⟨Fin.rev j, by simpa using hj⟩
  have hS : (magnitudeSum r : ℚ) ≠ 0 := by
    exact_mod_cast (by omega : magnitudeSum r ≠ 0)
  refine ⟨_, getLinePosition_exact r old1 q1 (fun i => (hr i).1) hd (by omega), ?_⟩
  rw [getLinePosition_exact (fun i => r (Fin.rev i)) old2 q2 (fun i => (hr _).1) hd2
    (by rw [magnitudeSum_rev]; omega), magnitudeSum_rev, weightedTotal_rev]
  congr 1
  push_cast
  field_simp
  ring

/-- C20 at the reading `[0, 400, 0, 1000, 0]`, whose reverse is
`[0, 1000, 0, 400, 0]`. -/
theorem getLinePosition_reverse_example :
    (∀ i, 0 ≤ (![0, 400, 0, 1000, 0] : SensorReading) i
        ∧ (![0, 400, 0, 1000, 0] : SensorReading) i ≤ 1000)
      ∧ (∃ i, (![0, 400, 0, 1000, 0] : SensorReading) i > 300)
      ∧ ∃ v, getLinePosition ![0, 400, 0, 1000, 0] ![0, 0, 0, 0, 0] 0 = some v
          ∧ getLinePosition (fun i => (![0, 400, 0, 1000, 0] : SensorReading) (Fin.rev i))
              ![0, 0, 0, 0, 0] 0 = some (-v) :=
  ⟨by decide, by decide,
    getLinePosition_reverse ![0, 400, 0, 1000, 0] (by decide) (by decide)
      ![0, 0, 0, 0, 0] ![0, 0, 0, 0, 0] 0 0⟩

end Controller
